import Mathlib

/-!
Shallow embedding of src/src/app.ts: a form-and-list application built
around a publish/subscribe project store, a component base class and a
validation function.  Definitions mirror the TypeScript source; theorems
settle the specification claims about them.
-/

namespace App

/-- Status enum from the source: `enum ProjectStatus { active, finished }`. -/
inductive ProjectStatus where
  | active
  | finished
deriving DecidableEq, Repr

/-- A JavaScript number as used by this program: either NaN (result of
coercing a non-numeric string) or an integer value.  All numeric values the
program manipulates are integers or NaN, so fractional values do not arise
in the embedded fragment. -/
inductive JSNum where
  | nan
  | int (n : Int)
deriving DecidableEq, Repr

/-- The `string | number` union used by the `value` field of `Validatable`. -/
inductive JSValue where
  | str (s : String)
  | num (n : JSNum)
deriving DecidableEq, Repr

/-- JavaScript `toString` on a number: NaN prints as "NaN", integers print
in decimal. -/
def JSNum.toStr : JSNum → String
  | .nan => "NaN"
  | .int n => toString n

/-- JavaScript `value.toString()` on a `string | number` value. -/
def JSValue.toStr : JSValue → String
  | .str s => s
  | .num n => n.toStr

/-- The `Validatable` interface (src/src/app.ts lines 55-62): a value plus
optional constraints.  An absent optional field is `none`; `required` is
tested for truthiness in the source, so absent and `false` coincide. -/
structure Validatable where
  value : JSValue
  required : Bool := false
  minLength : Option Int := none
  maxLength : Option Int := none
  min : Option Int := none
  max : Option Int := none
deriving DecidableEq, Repr

/-- Drop leading and trailing whitespace characters from a character list. -/
def trimChars (l : List Char) : List Char :=
  ((l.dropWhile Char.isWhitespace).reverse.dropWhile Char.isWhitespace).reverse

/-- JavaScript `String.prototype.trim`: removes leading and trailing
whitespace (space, tab, carriage return, line feed — the whitespace the
program can encounter). -/
def jsTrim (s : String) : String := String.mk (trimChars s.toList)

/-- The length of a string as the JavaScript number `value.length`. -/
def strLen (s : String) : Int := (s.length : Int)

/-- The `validate` function (src/src/app.ts lines 64-84), clause by clause:
required checks the trimmed stringification is non-empty; minLength and
maxLength apply only when the value is a string; min and max apply only when
the value is a number (a NaN comparison is always false). -/
def validate (v : Validatable) : Bool :=
  let isValid := true
  let isValid :=
    if v.required then isValid && ((jsTrim v.value.toStr).length != 0) else isValid
  let isValid :=
    match v.minLength, v.value with
    | some m, .str s => isValid && decide (m ≤ strLen s)
    | _, _ => isValid
  let isValid :=
    match v.maxLength, v.value with
    | some m, .str s => isValid && decide (strLen s ≤ m)
    | _, _ => isValid
  let isValid :=
    match v.min, v.value with
    | some m, .num (.int n) => isValid && decide (m ≤ n)
    | some _, .num .nan => isValid && false
    | _, _ => isValid
  let isValid :=
    match v.max, v.value with
    | some m, .num (.int n) => isValid && decide (n ≤ m)
    | some _, .num .nan => isValid && false
    | _, _ => isValid
  isValid

example : validate { value := .num (.int 3), required := true, min := some 1, max := some 9 } = true := by decide

example : validate { value := .num (.int 0), required := true, min := some 1, max := some 9 } = false := by decide

example : validate { value := .str "", required := true } = false := by decide

example : validate { value := .str "  hi " , required := true } = true := by decide

example : validate { value := .str "x", min := some 5 } = true := by decide

example : validate { value := .num .nan, min := some 1 } = false := by decide

/-- The `Project` class (src/src/app.ts lines 16-22): id, title, description,
people count and status, all set at construction. -/
structure Project where
  id : String
  title : String
  description : String
  people : JSNum
  status : ProjectStatus
deriving DecidableEq, Repr

/-- The observable state of `ProjectState` (fields of `State` and
`ProjectState`, src/src/app.ts lines 8-27): the registered listeners, kept
as opaque identifiers in registration order, and the ordered project
sequence.  Listener bodies are modelled separately because the only
listeners the program registers never mutate the store. -/
structure StoreState where
  listeners : List Nat
  projects : List Project
deriving DecidableEq, Repr

/-- The store as first constructed: no listeners, no projects. -/
def StoreState.empty : StoreState := ⟨[], []⟩

/-- The `addListener` method (src/src/app.ts lines 11-13):
`this.listeners.push(listenerFn)`. -/
def addListener (s : StoreState) (l : Nat) : StoreState :=
  { s with listeners := s.listeners ++ [l] }

/-- The `addProject` method (src/src/app.ts lines 40-48): build a Project
with the supplied random id and status `active`, push it, then call every
listener in order with `this.projects.slice()`.  The returned event list
records each listener invocation together with the snapshot it received,
in the order the calls happen. -/
def addProject (s : StoreState) (id title description : String)
    (numOfPeople : JSNum) : StoreState × List (Nat × List Project) :=
  let newProject : Project := ⟨id, title, description, numOfPeople, .active⟩
  let projects := s.projects ++ [newProject]
  ({ s with projects := projects }, s.listeners.map (fun l => (l, projects)))

/-- Decimal digits to a natural number, left to right; fails on the first
non-digit. -/
def decDigitsAux : List Char → Nat → Option Nat
  | [], acc => some acc
  | c :: rest, acc =>
      if c.isDigit then decDigitsAux rest (acc * 10 + (c.toNat - 48)) else none

/-- A non-empty all-digit character list read as a natural number. -/
def decDigits : List Char → Option Nat
  | [] => none
  | l => decDigitsAux l 0

/-- JavaScript unary plus on a string (the `+enteredPeople` coercions,
src/src/app.ts lines 230 and 243), for the inputs this form produces:
trim, the empty string becomes 0, an optionally signed decimal integer
numeral becomes that integer, anything else becomes NaN. -/
def jsToNumber (s : String) : JSNum :=
  match (jsTrim s).toList with
  | [] => .int 0
  | c :: rest =>
      if c = '+' then
        match decDigits rest with
        | some n => .int (n : Int)
        | none => .nan
      else if c = '-' then
        match decDigits rest with
        | some n => .int (-(n : Int))
        | none => .nan
      else
        match decDigits (c :: rest) with
        | some n => .int (n : Int)
        | none => .nan

example : jsToNumber "3" = .int 3 := by decide
example : jsToNumber "" = .int 0 := by decide
example : jsToNumber " 10 " = .int 10 := by decide
example : jsToNumber "-4" = .int (-4) := by decide
example : jsToNumber "abc" = .nan := by decide

/-- The three input fields of `ProjectInput` as raw strings. -/
structure FormFields where
  title : String
  description : String
  people : String
deriving DecidableEq, Repr

/-- The title rule built by `garherUserInput` (src/src/app.ts
lines 221-224): required only. -/
def titleValidatable (f : FormFields) : Validatable :=
  { value := .str f.title, required := true }

/-- The description rule built by `garherUserInput` (src/src/app.ts
lines 225-228): required only. -/
def descValidatable (f : FormFields) : Validatable :=
  { value := .str f.description, required := true }

/-- The people rule built by `garherUserInput` (src/src/app.ts
lines 229-234): the coerced number, required, min 1, max 9. -/
def peopleValidatable (f : FormFields) : Validatable :=
  { value := .num (jsToNumber f.people), required := true,
    min := some 1, max := some 9 }

/-- The `garherUserInput` method (src/src/app.ts lines 216-245): validate
the three rules; on any failure show the alert and return nothing (`none`
is the alert branch), otherwise return the tuple with the people string
coerced to a number. -/
def garherUserInput (f : FormFields) : Option (String × String × JSNum) :=
  if !(validate (titleValidatable f)) || !(validate (descValidatable f))
      || !(validate (peopleValidatable f)) then
    none
  else
    some (f.title, f.description, jsToNumber f.people)

/-- The `clearInputs` method (src/src/app.ts lines 247-251): set all three
inputs to the empty string. -/
def clearInputs (_ : FormFields) : FormFields := ⟨"", "", ""⟩

/-- What one run of `submitHandler` leaves behind: the store, the input
fields, whether the alert fired, and the listener invocations made. -/
structure SubmitOutcome where
  store : StoreState
  fields : FormFields
  alerted : Bool
  events : List (Nat × List Project)
deriving DecidableEq, Repr

/-- The `submitHandler` method (src/src/app.ts lines 203-214): gather the
user input; when it is a tuple, add the project (with the id drawn for this
call) and clear the inputs; otherwise the alert has fired and nothing else
happens. -/
def submitHandler (id : String) (st : StoreState) (f : FormFields) :
    SubmitOutcome :=
  match garherUserInput f with
  | none => ⟨st, f, true, []⟩
  | some (title, desc, people) =>
      let r := addProject st id title desc people
      ⟨r.1, clearInputs f, false, r.2⟩

/-- The static bookkeeping behind `ProjectState.getInstance`: the static
`instance` slot (holding an allocated object identity or nothing) and a
counter supplying fresh object identities for `new ProjectState()`. -/
structure AllocState where
  instanceSlot : Option Nat
  nextId : Nat
deriving DecidableEq, Repr

/-- The `getInstance` method (src/src/app.ts lines 33-38) exactly as
written: when the static slot is set, return its contents; otherwise
allocate and return a fresh `ProjectState` — the source never writes the
new object into the static slot. -/
def getInstance (st : AllocState) : Nat × AllocState :=
  match st.instanceSlot with
  | some i => (i, st)
  | none => (st.nextId, { st with nextId := st.nextId + 1 })

/-- The four insertion positions of `Element.insertAdjacentElement`. -/
inductive InsertPosition where
  | beforebegin
  | afterbegin
  | beforeend
  | afterend
deriving DecidableEq, Repr

/-- The host element and its surroundings: the siblings before the host,
the host child list in document order, and the siblings after the host.
Elements are carried as opaque names. -/
structure HostDom where
  beforeHost : List String
  children : List String
  afterHost : List String
deriving DecidableEq, Repr

/-- DOM `insertAdjacentElement` semantics relative to the host element:
beforebegin places the element immediately before the host (outside it),
afterbegin as the first child, beforeend as the last child, afterend
immediately after the host (outside it). -/
def insertAdjacentElement (d : HostDom) (pos : InsertPosition)
    (el : String) : HostDom :=
  match pos with
  | .beforebegin => { d with beforeHost := d.beforeHost ++ [el] }
  | .afterbegin => { d with children := el :: d.children }
  | .beforeend => { d with children := d.children ++ [el] }
  | .afterend => { d with afterHost := el :: d.afterHost }

/-- The `Component.attach` method (src/src/app.ts lines 117-120):
the position is `beforeend` when `atStart` is true and `afterend`
otherwise, then the element is inserted adjacent to the host. -/
def attach (d : HostDom) (atStart : Bool) (el : String) : HostDom :=
  let w := if atStart then InsertPosition.beforeend else InsertPosition.afterend
  insertAdjacentElement d w el

/-- The two list categories a `ProjectList` can be constructed with. -/
inductive ListKind where
  | active
  | finished
deriving DecidableEq, Repr

/-- The `renderProjects` method (src/src/app.ts lines 140-151): clear the
list element, then append one list item per assigned project carrying the
project title; the rendered region is the resulting sequence of titles. -/
def renderProjects (assignedProjects : List Project) : List String :=
  assignedProjects.map (fun item => item.title)

/-- The listener body registered by `ProjectList.configure` (src/src/app.ts
lines 162-173): filter the received snapshot with the view category
predicate, store it as the assigned projects, and re-render; the result is
the pair of the assigned projects and the rendered titles. -/
def listenerUpdate (type : ListKind) (projects : List Project) :
    List Project × List String :=
  let filteredProject := projects.filter (fun p =>
    if type = ListKind.active then p.status == ProjectStatus.active
    else p.status == ProjectStatus.finished)
  (filteredProject, renderProjects filteredProject)

/-- The status a `ProjectList` category selects. -/
def kindStatus : ListKind → ProjectStatus
  | .active => .active
  | .finished => .finished

/-- Store states reachable through the public interface: the empty store,
then any interleaving of `addListener` and `addProject` calls. -/
inductive Reachable : StoreState → Prop where
  | empty : Reachable StoreState.empty
  | addL {s : StoreState} (l : Nat) : Reachable s → Reachable (addListener s l)
  | addP {s : StoreState} (id title description : String) (numOfPeople : JSNum) :
      Reachable s → Reachable (addProject s id title description numOfPeople).1

/-- Iterated addProject: run the store mutation once per input triple,
drawing the id for the k-th call from the random source r. -/
def runAdds (r : Nat → String) (k : Nat) (s : StoreState) :
    List (String × String × JSNum) → StoreState
  | [] => s
  | (t, d, p) :: rest => runAdds r (k + 1) (addProject s (r k) t d p).1 rest

/-- The project sequence the iterated calls build: the k-th input becomes
the k-th project, carrying the k-th drawn id and status active. -/
def expectedProjects (r : Nat → String) (k : Nat) :
    List (String × String × JSNum) → List Project
  | [] => []
  | (t, d, p) :: rest =>
      ⟨r k, t, d, p, .active⟩ :: expectedProjects r (k + 1) rest

/-- Iterating addProject appends exactly the expected projects. -/
theorem runAdds_projects (r : Nat → String)
    (l : List (String × String × JSNum)) :
    ∀ (k : Nat) (s : StoreState),
      (runAdds r k s l).projects = s.projects ++ expectedProjects r k l := by
  induction l with
  | nil => intro k s; simp [runAdds, expectedProjects]
  | cons hd rest ih =>
      intro k s
      obtain ⟨t, d, p⟩ := hd
      simp [runAdds, expectedProjects, ih, addProject]

/-- The expected project list has one project per input. -/
theorem expectedProjects_length (r : Nat → String)
    (l : List (String × String × JSNum)) :
    ∀ k : Nat, (expectedProjects r k l).length = l.length := by
  induction l with
  | nil => intro k; rfl
  | cons hd rest ih =>
      intro k
      obtain ⟨t, d, p⟩ := hd
      simp [expectedProjects, ih]

/-- Every expected project has status active. -/
theorem expectedProjects_status (r : Nat → String)
    (l : List (String × String × JSNum)) :
    ∀ k : Nat, ∀ p ∈ expectedProjects r k l,
      p.status = ProjectStatus.active := by
  induction l with
  | nil => intro k p hp; simp [expectedProjects] at hp
  | cons hd rest ih =>
      intro k p hp
      obtain ⟨t, d, np⟩ := hd
      simp [expectedProjects] at hp
      rcases hp with rfl | hp
      · rfl
      · exact ih (k + 1) p hp

/-- The ids of the expected projects are the drawn random values, one per
call index. -/
theorem expectedProjects_ids (r : Nat → String)
    (l : List (String × String × JSNum)) :
    ∀ k : Nat, (expectedProjects r k l).map Project.id
      = (List.range' k l.length).map r := by
  induction l with
  | nil => intro k; rfl
  | cons hd rest ih =>
      intro k
      obtain ⟨t, d, p⟩ := hd
      simp [expectedProjects, List.range'_succ, ih]

/-- Claim C4: starting from the empty store, N addProject calls leave a
sequence of exactly N projects, the k-th built from the k-th call in
insertion order, every one with status active; and when the N random draws
are pairwise distinct, the N ids are pairwise distinct. -/
theorem addProject_iterated_spec (r : Nat → String)
    (inputs : List (String × String × JSNum))
    (hr : ∀ i, i < inputs.length → ∀ j, j < inputs.length →
      r i = r j → i = j) :
    (runAdds r 0 StoreState.empty inputs).projects
        = expectedProjects r 0 inputs ∧
    (runAdds r 0 StoreState.empty inputs).projects.length = inputs.length ∧
    (∀ p ∈ (runAdds r 0 StoreState.empty inputs).projects,
        p.status = ProjectStatus.active) ∧
    ((runAdds r 0 StoreState.empty inputs).projects.map Project.id).Nodup := by
  have h1 : (runAdds r 0 StoreState.empty inputs).projects
      = expectedProjects r 0 inputs := by
    simpa [StoreState.empty] using runAdds_projects r inputs 0 StoreState.empty
  refine ⟨h1, ?_, ?_, ?_⟩
  · rw [h1]; exact expectedProjects_length r inputs 0
  · rw [h1]; exact expectedProjects_status r inputs 0
  · rw [h1, expectedProjects_ids r inputs 0, ← List.range_eq_range']
    refine List.Nodup.map_on ?_ (List.nodup_range inputs.length)
    intro i hi j hj hij
    exact hr i (List.mem_range.mp hi) j (List.mem_range.mp hj) hij

/-- Claim C4 witness: three calls with distinct drawn ids produce the three
expected projects, of length three, all active, with pairwise distinct
ids. -/
theorem addProject_iterated_spec_witness :
    (runAdds (fun n => toString n) 0 StoreState.empty
        [("t0", "d0", .int 1), ("t1", "d1", .int 2),
         ("t2", "d2", .int 3)]).projects
      = expectedProjects (fun n => toString n) 0
          [("t0", "d0", .int 1), ("t1", "d1", .int 2), ("t2", "d2", .int 3)] ∧
    (runAdds (fun n => toString n) 0 StoreState.empty
        [("t0", "d0", .int 1), ("t1", "d1", .int 2),
         ("t2", "d2", .int 3)]).projects.length = 3 ∧
    (∀ p ∈ (runAdds (fun n => toString n) 0 StoreState.empty
        [("t0", "d0", .int 1), ("t1", "d1", .int 2),
         ("t2", "d2", .int 3)]).projects, p.status = ProjectStatus.active) ∧
    ((runAdds (fun n => toString n) 0 StoreState.empty
        [("t0", "d0", .int 1), ("t1", "d1", .int 2),
         ("t2", "d2", .int 3)]).projects.map Project.id).Nodup :=
  addProject_iterated_spec (fun n => toString n)
    [("t0", "d0", .int 1), ("t1", "d1", .int 2), ("t2", "d2", .int 3)]
    (by decide)

/-- Snapshot with two active projects and one finished project. -/
def demoSnapshot : List Project :=
  [⟨"i1", "Build API", "d1", .int 3, .active⟩,
   ⟨"i2", "Write docs", "d2", .int 2, .active⟩,
   ⟨"i3", "Old thing", "d3", .int 1, .finished⟩]

/-- Claim C9: the listener a ProjectList registers keeps exactly the
snapshot projects whose status matches the view category and renders
exactly their titles; on the two-active one-finished snapshot the active
view renders the two active titles and the finished view the one finished
title. -/
theorem projectList_filter_spec :
    (∀ (tp : ListKind) (projects : List Project),
      (∀ p, p ∈ (listenerUpdate tp projects).1 ↔
          p ∈ projects ∧ p.status = kindStatus tp) ∧
      (listenerUpdate tp projects).2
          = ((listenerUpdate tp projects).1).map Project.title) ∧
    (listenerUpdate .active demoSnapshot).2 = ["Build API", "Write docs"] ∧
    (listenerUpdate .finished demoSnapshot).2 = ["Old thing"] := by
  refine ⟨?_, by decide, by decide⟩
  intro tp projects
  constructor
  · intro p
    cases tp <;> simp [listenerUpdate, kindStatus, List.mem_filter]
  · cases tp <;> rfl

/-- Claim C9 witness: the finished view renders exactly the finished title
on the mixed snapshot. -/
theorem projectList_filter_spec_witness :
    (listenerUpdate .finished demoSnapshot).2 = ["Old thing"] :=
  projectList_filter_spec.2.2

/-- A list of all-active projects has an empty finished filter. -/
theorem finished_filter_of_active (l : List Project)
    (hl : ∀ p ∈ l, p.status = ProjectStatus.active) :
    (listenerUpdate .finished l).1 = [] := by
  simp only [listenerUpdate]
  rw [List.filter_eq_nil_iff]
  intro p hp
  simp [hl p hp]

/-- Claim C10: in every store state reachable through the public interface
every project has status active, so the finished filter of the store
sequence is empty, and so is the finished filter of every snapshot an
addProject call delivers from such a state. -/
theorem reachable_store_active (s : StoreState) (h : Reachable s) :
    (∀ p ∈ s.projects, p.status = ProjectStatus.active) ∧
    (listenerUpdate .finished s.projects).1 = [] ∧
    (∀ (id t d : String) (np : JSNum),
      ∀ e ∈ (addProject s id t d np).2,
        (listenerUpdate .finished e.2).1 = []) := by
  have key : ∀ p ∈ s.projects, p.status = ProjectStatus.active := by
    induction h with
    | empty => intro p hp; simp [StoreState.empty] at hp
    | addL l _ ih => intro p hp; exact ih p hp
    | addP id t d np _ ih =>
        intro p hp
        simp [addProject] at hp
        rcases hp with hp | rfl
        · exact ih p hp
        · rfl
  refine ⟨key, finished_filter_of_active _ key, ?_⟩
  intro id t d np e he
  simp [addProject] at he
  obtain ⟨l, -, hsnap⟩ := he
  apply finished_filter_of_active
  intro p hp
  rw [← hsnap] at hp
  simp at hp
  rcases hp with hp | rfl
  · exact key p hp
  · rfl

/-- Claim C10 witness: a store reached by registering one listener and
adding one project has only active projects, an empty finished filter, and
delivers only snapshots with an empty finished filter. -/
theorem reachable_store_active_witness :
    (∀ p ∈ ((addProject (addListener StoreState.empty 5)
        "i" "t" "d" (.int 2)).1).projects,
      p.status = ProjectStatus.active) ∧
    (listenerUpdate .finished ((addProject (addListener StoreState.empty 5)
        "i" "t" "d" (.int 2)).1).projects).1 = [] ∧
    (∀ (id t d : String) (np : JSNum),
      ∀ e ∈ (addProject ((addProject (addListener StoreState.empty 5)
          "i" "t" "d" (.int 2)).1) id t d np).2,
        (listenerUpdate .finished e.2).1 = []) :=
  reachable_store_active _
    (Reachable.addP "i" "t" "d" (.int 2) (Reachable.addL 5 Reachable.empty))

/-- Claim C1 material: starting from an unset static slot, two successive
calls to getInstance return different instances, and the slot is still
unset afterwards — getInstance never stores the instance it allocates, so
it is not a singleton accessor. -/
theorem getInstance_not_cached :
    (getInstance ⟨none, 0⟩).1 ≠ (getInstance (getInstance ⟨none, 0⟩).2).1 ∧
    (getInstance (getInstance ⟨none, 0⟩).2).2.instanceSlot = none := by
  decide

/-- Claim C5 material: against a host that already has one child, attach
with atStart true appends the new element after the existing content
(position beforeend), and attach with atStart false does not place the
element among the host children at all — it lands outside the host, as the
sibling immediately after it (position afterend). -/
theorem attach_misplaces :
    (attach ⟨[], ["existing"], []⟩ true "root").children = ["existing", "root"] ∧
    (attach ⟨[], ["existing"], []⟩ false "root").children = ["existing"] ∧
    (attach ⟨[], ["existing"], []⟩ false "root").afterHost = ["root"] := by
  decide

/-- Claim C6: for every rule carrying a numeric value and the bounds min 1
and max 9, whatever the required flag and length constraints, validate
rejects 0, accepts 1, accepts 9 and rejects 10. -/
theorem validate_range_one_nine (req : Bool) (mnl mxl : Option Int) :
    validate { value := .num (.int 0), required := req, minLength := mnl,
                 maxLength := mxl, min := some 1, max := some 9 } = false ∧
    validate { value := .num (.int 1), required := req, minLength := mnl,
                 maxLength := mxl, min := some 1, max := some 9 } = true ∧
    validate { value := .num (.int 9), required := req, minLength := mnl,
                 maxLength := mxl, min := some 1, max := some 9 } = true ∧
    validate { value := .num (.int 10), required := req, minLength := mnl,
                 maxLength := mxl, min := some 1, max := some 9 } = false := by
  cases req <;> rcases mnl with _ | m <;> rcases mxl with _ | m' <;>
    exact ⟨rfl, rfl, rfl, rfl⟩

/-- Claim C6 witness: the four evaluations at a concrete rule that also
sets the required flag and a minLength bound. -/
theorem validate_range_one_nine_witness :
    validate { value := .num (.int 0), required := true, minLength := some 5,
                 maxLength := none, min := some 1, max := some 9 } = false ∧
    validate { value := .num (.int 1), required := true, minLength := some 5,
                 maxLength := none, min := some 1, max := some 9 } = true ∧
    validate { value := .num (.int 9), required := true, minLength := some 5,
                 maxLength := none, min := some 1, max := some 9 } = true ∧
    validate { value := .num (.int 10), required := true, minLength := some 5,
                 maxLength := none, min := some 1, max := some 9 } = false :=
  validate_range_one_nine true (some 5) none

/-- Claim C7: validate ignores min and max on a textual value (the result
equals that of the same rule with min and max erased), and ignores
minLength and maxLength on a numeric value. -/
theorem validate_skips_mismatched_types (req : Bool)
    (mnl mxl mn mx : Option Int) (s : String) (n : JSNum) :
    validate { value := .str s, required := req, minLength := mnl,
                 maxLength := mxl, min := mn, max := mx } =
      validate { value := .str s, required := req, minLength := mnl,
                 maxLength := mxl } ∧
    validate { value := .num n, required := req, minLength := mnl,
                 maxLength := mxl, min := mn, max := mx } =
      validate { value := .num n, required := req, min := mn, max := mx } := by
  constructor
  · rcases mn with _ | a <;> rcases mx with _ | b <;> rfl
  · rcases mnl with _ | a <;> rcases mxl with _ | b <;> rfl

/-- Claim C7 witness: a textual value passes despite a violated max bound,
and a numeric value passes despite a violated minLength bound. -/
theorem validate_skips_mismatched_types_witness :
    validate { value := .str "hello", required := true, minLength := none,
                 maxLength := none, min := none, max := some 2 } =
      validate { value := .str "hello", required := true, minLength := none,
                 maxLength := none } ∧
    validate { value := .num (.int 3), required := true, minLength := some 50,
                 maxLength := none, min := none, max := some 2 } =
      validate { value := .num (.int 3), required := true, min := none,
                 max := some 2 } :=
  validate_skips_mismatched_types true none (some 50) none (some 2)
    "hello" (.int 3)

/-- Claim C8: with the required flag set, a value whose stringification
trims to the empty string is rejected whatever the other constraints, and a
value whose stringification trims non-empty is accepted when no other
constraint is set. -/
theorem validate_required_spec :
    (∀ (v : JSValue) (mnl mxl mn mx : Option Int), jsTrim v.toStr = "" →
      validate { value := v, required := true, minLength := mnl,
                 maxLength := mxl, min := mn, max := mx } = false) ∧
    (∀ v : JSValue, jsTrim v.toStr ≠ "" →
      validate { value := v, required := true } = true) := by
  constructor
  · intro v mnl mxl mn mx h
    rcases v with s | n
    · simp only [JSValue.toStr] at h
      rcases mnl with _ | a <;> rcases mxl with _ | b <;>
        rcases mn with _ | c <;> rcases mx with _ | d <;>
        simp [validate, JSValue.toStr, h]
    · rcases n with _ | k <;> simp only [JSValue.toStr, JSNum.toStr] at h <;>
        rcases mnl with _ | a <;> rcases mxl with _ | b <;>
        rcases mn with _ | c <;> rcases mx with _ | d <;>
        simp [validate, JSValue.toStr, JSNum.toStr, h]
  · intro v h
    have hlen : (jsTrim v.toStr).length ≠ 0 := by
      intro h0
      exact h (String.ext (List.length_eq_zero.mp h0))
    rcases v with s | n <;> simp [validate, JSValue.toStr] at hlen ⊢ <;>
      simpa using hlen

/-- Mapping each element to a pair and projecting the first component gives
back the original list. -/
theorem map_fst_of_map_pair {α β : Type} (l : List α) (x : β) :
    (l.map fun a => (a, x)).map Prod.fst = l := by
  induction l with
  | nil => rfl
  | cons a l ih => simp only [List.map_cons, ih]

/-- Claim C2: addProject appends the new item to the project sequence, then
invokes every registered listener exactly once, in registration order, each
receiving the full post-append sequence; in particular with exactly two
registered subscribers the invocation list is the two subscribers in order,
both given the same sequence. -/
theorem addProject_notify_spec (s : StoreState) (id t d : String) (p : JSNum) :
    (addProject s id t d p).1.projects
        = s.projects ++ [⟨id, t, d, p, .active⟩] ∧
    ((addProject s id t d p).2).map Prod.fst = s.listeners ∧
    (∀ e ∈ (addProject s id t d p).2,
        e.2 = (addProject s id t d p).1.projects) ∧
    (∀ a b, s.listeners = [a, b] →
      (addProject s id t d p).2 =
        [(a, s.projects ++ [⟨id, t, d, p, ProjectStatus.active⟩]),
         (b, s.projects ++ [⟨id, t, d, p, ProjectStatus.active⟩])]) := by
  refine ⟨rfl, ?_, ?_, ?_⟩
  · exact map_fst_of_map_pair s.listeners _
  · intro e he
    simp [addProject] at he ⊢
    obtain ⟨l, -, h⟩ := he
    simp [← h]
  · intro a b hab
    simp [addProject, hab]

/-- Claim C2 witness: on a store with two registered subscribers and one
stored project, one addProject call produces exactly one invocation of each
subscriber, in registration order, both with the same two-element
sequence. -/
theorem addProject_notify_spec_witness :
    (addProject ⟨[7, 8], [⟨"a", "t0", "d0", .int 1, .active⟩]⟩
        "b" "t1" "d1" (.int 2)).2 =
      [(7, [⟨"a", "t0", "d0", .int 1, .active⟩,
            ⟨"b", "t1", "d1", .int 2, ProjectStatus.active⟩]),
       (8, [⟨"a", "t0", "d0", .int 1, .active⟩,
            ⟨"b", "t1", "d1", .int 2, ProjectStatus.active⟩])] := by
  have h := (addProject_notify_spec ⟨[7, 8], [⟨"a", "t0", "d0", .int 1, .active⟩]⟩
    "b" "t1" "d1" (.int 2)).2.2.2 7 8 rfl
  simpa using h

/-- Claim C3: one submit with the three gathered field values: when the
conjunction of the three validation rules fails, the alert fires, the store
is untouched, no listener runs and the fields keep their contents; when all
three rules pass, the project built from the fields is appended to the
store and all three fields are cleared to the empty string, with no
alert. -/
theorem submitHandler_spec (id : String) (st : StoreState) (f : FormFields) :
    ((validate (titleValidatable f) && validate (descValidatable f)
        && validate (peopleValidatable f)) = false →
      submitHandler id st f = ⟨st, f, true, []⟩) ∧
    ((validate (titleValidatable f) && validate (descValidatable f)
        && validate (peopleValidatable f)) = true →
      (submitHandler id st f).store.projects
          = st.projects
              ++ [⟨id, f.title, f.description, jsToNumber f.people, .active⟩] ∧
      (submitHandler id st f).fields = ⟨"", "", ""⟩ ∧
      (submitHandler id st f).alerted = false) := by
  cases hT : validate (titleValidatable f) <;>
    cases hD : validate (descValidatable f) <;>
    cases hP : validate (peopleValidatable f) <;>
    simp [submitHandler, garherUserInput, addProject, clearInputs, hT, hD, hP]

/-- Claim C3 witness: the empty-title submit fires the alert and leaves the
store and the fields as they were; the fully valid submit appends the
project and clears the three fields without an alert. -/
theorem submitHandler_spec_witness :
    submitHandler "id0" StoreState.empty ⟨"", "X", "3"⟩
        = ⟨StoreState.empty, ⟨"", "X", "3"⟩, true, []⟩ ∧
    (submitHandler "id1" StoreState.empty
        ⟨"Build API", "REST service", "3"⟩).store.projects
        = [⟨"id1", "Build API", "REST service", .int 3, .active⟩] ∧
    (submitHandler "id1" StoreState.empty
        ⟨"Build API", "REST service", "3"⟩).fields = ⟨"", "", ""⟩ ∧
    (submitHandler "id1" StoreState.empty
        ⟨"Build API", "REST service", "3"⟩).alerted = false := by
  refine ⟨(submitHandler_spec "id0" StoreState.empty ⟨"", "X", "3"⟩).1
    (by decide), ?_⟩
  have h := (submitHandler_spec "id1" StoreState.empty
    ⟨"Build API", "REST service", "3"⟩).2 (by decide)
  simpa [StoreState.empty] using h

/-- Claim C8 witness: a whitespace-only title is rejected even with a min
bound present, and a plain non-empty title is accepted. -/
theorem validate_required_spec_witness :
    validate { value := .str "   ", required := true, minLength := none,
               maxLength := none, min := some 1, max := none } = false ∧
    validate { value := .str "hi", required := true } = true :=
  ⟨validate_required_spec.1 (.str "   ") none none (some 1) none (by decide),
   validate_required_spec.2 (.str "hi") (by decide)⟩

end App
